import Mathlib

/-!
# Conversational Session Engine — verification of the spec against `src/src/App.tsx`

Shallow embedding of the chat engine implemented (identically, up to styling)
in `src/src/App.tsx` and the unnamed variants.  The embedded parts are:

* the static model catalog `models` and the tone table `toneLead`;
* `composeResponse`, the pure reply-composition function;
* the component state (`AppState`): messages, input field, selected model,
  tone, toggles, status chip, `isSending`, plus the timer bookkeeping
  (`window.setTimeout` slots and the `typingTimeout` ref);
* the event handlers `handleSubmit`, `handleClear`, the model `Select`
  `onChange` handler, the tone `Select` handler, the input `TextField`
  handler (which cannot fire while the field is disabled by `isSending`),
  the example-prompt click handler, and the settings switches;
* a small-step relation `Step` covering every event the UI can deliver,
  including the nondeterministic firing of any live timer.

Message ids and timestamps are produced by the environment
(`crypto.randomUUID()` / `new Date()`); they are threaded in as explicit
`Fresh` oracle values, since no verified property depends on them.
`window.setTimeout` handles are modelled by a counter starting at 1
(browser timer ids are positive integers, so the JS truthiness test
`if (typingTimeout.current)` coincides with the ref being set).
JS `String.prototype.trim` / `.length` are modelled by `jsTrim` /
`String.length`.
-/

set_option maxRecDepth 8192

namespace Chat

/-- One entry of the static model catalog (`{id, label, description}`). -/
structure ModelInfo where
  id : String
  label : String
  description : String
deriving DecidableEq

/-- The static model catalog `models` from `App.tsx`. -/
def models : List ModelInfo :=
  [ ⟨"nova-3", "Nova 3", "Balanced assistant for most tasks"⟩,
    ⟨"nova-3-mini", "Nova 3 Mini", "Fast lightweight chat"⟩,
    ⟨"analysis-pro", "Analysis Pro", "Analytical model for structured outputs"⟩ ]

/-- `type Tone = "Balanced" | "Concise" | "Detailed" | "Playful"`. -/
inductive Tone where
  | Balanced
  | Concise
  | Detailed
  | Playful
deriving DecidableEq

/-- The string value of a `Tone` (in TS, `Tone` is a union of string
literals, so `${tone}` interpolates this name). -/
def Tone.name : Tone → String
  | .Balanced => "Balanced"
  | .Concise => "Concise"
  | .Detailed => "Detailed"
  | .Playful => "Playful"

/-- `toneLead : Record<Tone, string>`. -/
def toneLead : Tone → String
  | .Balanced => "Here you go with a balanced take:"
  | .Concise => "Quick answer:"
  | .Detailed => "Let me unpack that in detail:"
  | .Playful => "Fun spin coming up:"

/-- `type MessageRole = "user" | "ai"`. -/
inductive MessageRole where
  | user
  | ai
deriving DecidableEq

/-- A conversation entry (`type Message`); `id` and `timestamp` are opaque
environment-produced values. -/
structure Message where
  id : String
  role : MessageRole
  text : String
  timestamp : Nat
deriving DecidableEq

/-- The status chip state (`useState({ text: "Ready", accent: false })`). -/
structure Status where
  text : String
  accent : Bool
deriving DecidableEq

/-- `models.find((model) => model.id === selectedModel)?.label ?? "Model"`,
as computed both by the `selectedModelLabel` memo and inside
`composeResponse`. -/
def modelLabel (selectedModel : String) : String :=
  (((models.find? (fun m => m.id == selectedModel)).map (fun m => m.label)).getD "Model")

/-- `composeResponse` from `App.tsx`.  In the source it is a closure reading
the render's `tone` and `selectedModel` state; here those two reads are the
explicit arguments `tone` and `selectedModel`, which is exactly the data the
closure captures. -/
def composeResponse (prompt : String) (tone : Tone) (selectedModel : String) : String :=
  toneLead tone ++ " " ++ prompt ++ "\n\n" ++
  modelLabel selectedModel ++ " thinks the key points are:\n" ++
  "• Understand intent clearly.\n" ++
  "• Respond with the tone selected (" ++ tone.name ++ ").\n" ++
  "• Provide a follow-up option for deeper exploration.\n\n" ++
  (if tone = Tone.Playful then "Let me know if you want another quirky angle!"
   else "Happy to refine further.")

/-- The delay computed in `handleSubmit`:
`Math.min(1400, 500 + message.length * 4)`. -/
def delayFor (len : Nat) : Nat :=
  Nat.min 1400 (500 + len * 4)

/-- JS `String.prototype.trim` (`input.trim()`), modelled on the underlying
character list: drop whitespace from both ends.  (`Char.isWhitespace`
covers the blanks and line terminators that can occur in a chat input.) -/
def jsTrim (s : String) : String :=
  ⟨((s.data.dropWhile Char.isWhitespace).reverse.dropWhile Char.isWhitespace).reverse⟩

/-- A live `window.setTimeout` slot created by `handleSubmit`.  `tid` is the
handle returned by `setTimeout`; the other fields are the data captured by
the scheduled `respond` closure: the trimmed prompt, and the `tone` and
`selectedModel` state values of the render in which `handleSubmit` ran
(React closures see the state of their own render, so a later `setTone` or
`setSelectedModel` cannot change what a pending `respond` will read). -/
structure PendingReply where
  tid : Nat
  delay : Nat
  prompt : String
  tone : Tone
  selectedModel : String
deriving DecidableEq

/-- The component state of `App`, together with the timer bookkeeping of the
browser event loop (`timers` = the set of not-yet-fired, not-yet-cleared
timeouts created by this component; `nextTimerId` = the next handle
`setTimeout` will return). -/
structure AppState where
  messages : List Message
  input : String
  selectedModel : String
  tone : Tone
  showTimestamps : Bool
  typingPause : Bool
  showExamples : Bool
  isSettingsOpen : Bool
  darkMode : Bool
  status : Status
  isSending : Bool
  typingTimeoutRef : Option Nat
  timers : List PendingReply
  nextTimerId : Nat
deriving DecidableEq

/-- The initial component state (the `useState` initialisers; `darkMode`
models `mode === "dark"`).  Browser timer handles are positive, so
`nextTimerId` starts at 1. -/
def initState : AppState :=
  { messages := []
    input := ""
    selectedModel := (models.headD ⟨"", "", ""⟩).id
    tone := .Balanced
    showTimestamps := true
    typingPause := true
    showExamples := true
    isSettingsOpen := false
    darkMode := true
    status := ⟨"Ready", false⟩
    isSending := false
    typingTimeoutRef := none
    timers := []
    nextTimerId := 1 }

/-- Environment-produced data for one `addMessage` call: the fresh id from
`createId()` and the timestamp from `new Date()`. -/
structure Fresh where
  id : String
  now : Nat
deriving DecidableEq

/-- `addMessage(role, text)`: appends a new entry to `messages`
(`setMessages((prev) => [...prev, entry])`). -/
def addMessage (f : Fresh) (role : MessageRole) (text : String) (s : AppState) : AppState :=
  { s with messages := s.messages ++ [⟨f.id, role, text, f.now⟩] }

/-- The body of the `respond` closure built in `handleSubmit`: compose the
reply from the captured prompt/tone/model, append it as an `ai` message and
reset the status.  `prompt`, `tone` and `selectedModel` are the values the
closure captured at submit time. -/
def respond (f : Fresh) (prompt : String) (tone : Tone) (selectedModel : String)
    (s : AppState) : AppState :=
  let s1 := addMessage f .ai (composeResponse prompt tone selectedModel) s
  { s1 with status := ⟨"Ready", false⟩, isSending := false }

/-- `handleSubmit`.  Reads the current `input` state (the form has no other
source of text).  `fu` is the environment data for the user message, `fa`
the data for the assistant message on the synchronous
(`typingPause === false`) path; on the asynchronous path the assistant
message is created later, when the timer fires. -/
def handleSubmit (fu fa : Fresh) (s : AppState) : AppState :=
  let message := jsTrim s.input
  if message = "" then s
  else
    let s1 := { s with input := "", showExamples := false }
    let s2 := addMessage fu .user message s1
    let s3 := { s2 with
                status := ⟨"Thinking with " ++ modelLabel s.selectedModel, true⟩,
                isSending := true }
    if s.typingPause then
      let delay := delayFor message.length
      { s3 with
        timers := s3.timers ++ [⟨s3.nextTimerId, delay, message, s.tone, s.selectedModel⟩],
        typingTimeoutRef := some s3.nextTimerId,
        nextTimerId := s3.nextTimerId + 1 }
    else
      respond fa message s.tone s.selectedModel s3

/-- The browser delivering the timeout `t`: the slot is consumed and the
scheduled `respond` closure runs with its captured data.  (The ref is not
reset; `clearTimeout` on a stale handle is a no-op.) -/
def fireTimer (fa : Fresh) (t : PendingReply) (s : AppState) : AppState :=
  respond fa t.prompt t.tone t.selectedModel
    { s with timers := s.timers.filter (fun u => u.tid ≠ t.tid) }

/-- `handleClear`: `clearTimeout(typingTimeout.current)` when the ref is
set, then empty the log, re-show the examples and reset the status. -/
def handleClear (s : AppState) : AppState :=
  let s1 :=
    match s.typingTimeoutRef with
    | some tid => { s with timers := s.timers.filter (fun u => u.tid ≠ tid) }
    | none => s
  { s1 with
    messages := []
    showExamples := true
    status := ⟨"Ready", false⟩
    isSending := false }

/-- The model `Select`'s `onChange` handler: unconditionally
`setSelectedModel(value)`, then report either the matched catalog entry or
the generic `"Model updated"` status. -/
def handleModelChange (value : String) (s : AppState) : AppState :=
  let s1 := { s with selectedModel := value }
  match models.find? (fun m => m.id == value) with
  | some m =>
      { s1 with status := ⟨"Model set to " ++ m.label ++ " — " ++ m.description, true⟩ }
  | none => { s1 with status := ⟨"Model updated", true⟩ }

/-- The tone `Select`'s `onChange` handler: `setTone(value)`. -/
def handleToneChange (t : Tone) (s : AppState) : AppState :=
  { s with tone := t }

/-- The message `TextField`'s `onChange`.  The field is rendered with
`disabled={isSending}`, so no change event can be delivered while a reply
is pending; in that window the handler cannot run and the state is kept. -/
def onInputChange (text : String) (s : AppState) : AppState :=
  if s.isSending then s else { s with input := text }

/-- Clicking an example prompt chip (`onClick={() => setInput(example.text)}`).
The chips are rendered only while `showExamples` is true. -/
def onExampleClick (text : String) (s : AppState) : AppState :=
  if s.showExamples then { s with input := text } else s

/-- The "Show timestamps" switch. -/
def setShowTimestamps (b : Bool) (s : AppState) : AppState :=
  { s with showTimestamps := b }

/-- The "Typing indicator" switch (`setTypingPause`). -/
def setTypingPause (b : Bool) (s : AppState) : AppState :=
  { s with typingPause := b }

/-- The theme toggle (`setMode(prev => prev === "dark" ? "light" : "dark")`). -/
def toggleMode (s : AppState) : AppState :=
  { s with darkMode := !s.darkMode }

/-- Opening/closing the settings drawer. -/
def setSettingsOpen (b : Bool) (s : AppState) : AppState :=
  { s with isSettingsOpen := b }

/-- One event delivered to the component: every handler the UI exposes,
plus the browser firing any live timeout. -/
inductive Step : AppState → AppState → Prop where
  | doInput (s : AppState) (text : String) : Step s (onInputChange text s)
  | doExample (s : AppState) (text : String) : Step s (onExampleClick text s)
  | doSubmit (s : AppState) (fu fa : Fresh) : Step s (handleSubmit fu fa s)
  | doClear (s : AppState) : Step s (handleClear s)
  | doModel (s : AppState) (value : String) : Step s (handleModelChange value s)
  | doTone (s : AppState) (t : Tone) : Step s (handleToneChange t s)
  | doShowTimestamps (s : AppState) (b : Bool) : Step s (setShowTimestamps b s)
  | doTypingPause (s : AppState) (b : Bool) : Step s (setTypingPause b s)
  | doMode (s : AppState) : Step s (toggleMode s)
  | doDrawer (s : AppState) (b : Bool) : Step s (setSettingsOpen b s)
  | doFire (s : AppState) (fa : Fresh) (t : PendingReply) (h : t ∈ s.timers) :
      Step s (fireTimer fa t s)

/-- States reachable from the initial render. -/
inductive Reachable : AppState → Prop where
  | init : Reachable initState
  | step {s s' : AppState} : Reachable s → Step s s' → Reachable s'

/-- States reachable from a given state by any sequence of events. -/
inductive ReachFrom : AppState → AppState → Prop where
  | refl (s : AppState) : ReachFrom s s
  | tail {s s' s'' : AppState} : ReachFrom s s' → Step s' s'' → ReachFrom s s''

/-! ### The reachability invariant

While a reply is pending (`isSending = true`) the input field is disabled
and was just cleared, and the example chips are hidden; moreover exactly
one timeout is live, it is the one the `typingTimeout` ref points to, and
its handle is below the next handle the browser will hand out.  When no
reply is pending there is no live timeout at all. -/

def Inv (s : AppState) : Prop :=
  (s.isSending = true → s.input = "" ∧ s.showExamples = false) ∧
  (s.isSending = false → s.timers = []) ∧
  (s.isSending = true →
    ∃ t, s.timers = [t] ∧ s.typingTimeoutRef = some t.tid ∧ t.tid < s.nextTimerId)

/-- `composeResponse` applied as the render-time closure it is in the
source: its `tone` and `selectedModel` reads come from the component state
`s` in which it was created. -/
def composeResponseAt (s : AppState) (prompt : String) : String :=
  composeResponse prompt s.tone s.selectedModel

/-- A concrete run used to exercise the theorems below: the user has typed
`"hi"` into the message field… -/
def exTyped : AppState :=
  onInputChange "hi" initState

/-- …and submitted the form, so a reply is now pending. -/
def exSending : AppState :=
  handleSubmit ⟨"u1", 10⟩ ⟨"a1", 20⟩ exTyped

/-! ### Shape lemmas for the handlers -/

theorem respond_eq (f : Fresh) (p : String) (t : Tone) (m : String) (s : AppState) :
    respond f p t m s =
      { s with
        messages := s.messages ++ [⟨f.id, .ai, composeResponse p t m, f.now⟩],
        status := ⟨"Ready", false⟩,
        isSending := false } := rfl

theorem handleSubmit_of_empty {s : AppState} (fu fa : Fresh) (h : jsTrim s.input = "") :
    handleSubmit fu fa s = s := by
  unfold handleSubmit
  simp [h]

theorem handleSubmit_async {s : AppState} (fu fa : Fresh)
    (h : ¬ jsTrim s.input = "") (hp : s.typingPause = true) :
    handleSubmit fu fa s =
      { s with
        input := ""
        showExamples := false
        messages := s.messages ++ [⟨fu.id, .user, jsTrim s.input, fu.now⟩]
        status := ⟨"Thinking with " ++ modelLabel s.selectedModel, true⟩
        isSending := true
        timers := s.timers ++
          [⟨s.nextTimerId, delayFor (jsTrim s.input).length, jsTrim s.input, s.tone, s.selectedModel⟩]
        typingTimeoutRef := some s.nextTimerId
        nextTimerId := s.nextTimerId + 1 } := by
  unfold handleSubmit addMessage
  simp [h, hp]

theorem handleSubmit_sync {s : AppState} (fu fa : Fresh)
    (h : ¬ jsTrim s.input = "") (hp : s.typingPause = false) :
    handleSubmit fu fa s =
      { s with
        input := ""
        showExamples := false
        messages := s.messages ++
          [⟨fu.id, .user, jsTrim s.input, fu.now⟩,
           ⟨fa.id, .ai, composeResponse (jsTrim s.input) s.tone s.selectedModel, fa.now⟩]
        status := ⟨"Ready", false⟩
        isSending := false } := by
  unfold handleSubmit addMessage respond addMessage
  simp [h, hp]

theorem handleModelChange_eq (value : String) (s : AppState) :
    handleModelChange value s =
      { s with
        selectedModel := value
        status :=
          match models.find? (fun m => m.id == value) with
          | some m => ⟨"Model set to " ++ m.label ++ " — " ++ m.description, true⟩
          | none => ⟨"Model updated", true⟩ } := by
  unfold handleModelChange
  cases models.find? (fun m => m.id == value) <;> rfl

theorem handleClear_eq (s : AppState) :
    handleClear s =
      { s with
        messages := []
        showExamples := true
        status := ⟨"Ready", false⟩
        isSending := false
        timers :=
          match s.typingTimeoutRef with
          | some tid => s.timers.filter (fun u => u.tid ≠ tid)
          | none => s.timers } := by
  unfold handleClear
  cases h : s.typingTimeoutRef <;> simp [h]

theorem inv_init : Inv initState := by
  refine ⟨?_, ?_, ?_⟩ <;> simp [initState]

theorem fireTimer_eq (fa : Fresh) (t : PendingReply) (s : AppState) :
    fireTimer fa t s =
      { s with
        messages := s.messages ++
          [⟨fa.id, .ai, composeResponse t.prompt t.tone t.selectedModel, fa.now⟩]
        status := ⟨"Ready", false⟩
        isSending := false
        timers := s.timers.filter (fun u => u.tid ≠ t.tid) } := rfl

/-- `Inv` only reads the input, example, sending and timer fields. -/
theorem inv_frame {s s' : AppState} (hinv : Inv s)
    (h_inp : s'.input = s.input) (h_ex : s'.showExamples = s.showExamples)
    (h_snd : s'.isSending = s.isSending) (h_tim : s'.timers = s.timers)
    (h_ref : s'.typingTimeoutRef = s.typingTimeoutRef)
    (h_next : s'.nextTimerId = s.nextTimerId) : Inv s' := by
  obtain ⟨h1, h2, h3⟩ := hinv
  refine ⟨?_, ?_, ?_⟩ <;> rw [h_snd]
  · intro hb
    rw [h_inp, h_ex]
    exact h1 hb
  · intro hb
    rw [h_tim]
    exact h2 hb
  · intro hb
    rw [h_tim, h_ref, h_next]
    exact h3 hb

theorem inv_step {s s' : AppState} (hinv : Inv s) (hst : Step s s') : Inv s' := by
  obtain ⟨h1, h2, h3⟩ := hinv
  cases hst with
  | doInput text =>
      cases hb : s.isSending
      · refine ⟨?_, ?_, ?_⟩ <;> simp [onInputChange, hb]
        exact h2 hb
      · simp only [onInputChange, hb, if_true]
        exact ⟨h1, h2, h3⟩
  | doExample text =>
      cases hse : s.showExamples
      · simp only [onExampleClick, hse, Bool.false_eq_true, if_false]
        exact ⟨h1, h2, h3⟩
      · simp only [onExampleClick, hse, if_true]
        cases hb : s.isSending
        · refine ⟨?_, ?_, ?_⟩ <;> simp [hb]
          exact h2 hb
        · exact absurd (h1 hb).2 (by simp [hse])
  | doSubmit fu fa =>
      by_cases he : jsTrim s.input = ""
      · rw [handleSubmit_of_empty fu fa he]
        exact ⟨h1, h2, h3⟩
      · have hb : s.isSending = false := by
          cases hb' : s.isSending
          · rfl
          · exact absurd (by rw [(h1 hb').1]; rfl) he
        have ht : s.timers = [] := h2 hb
        cases hp : s.typingPause
        · rw [handleSubmit_sync fu fa he hp]
          refine ⟨?_, ?_, ?_⟩
          · intro hb'
            simp at hb'
          · intro _
            simpa using ht
          · intro hb'
            simp at hb'
        · rw [handleSubmit_async fu fa he hp]
          refine ⟨?_, ?_, ?_⟩
          · intro _
            exact ⟨rfl, rfl⟩
          · intro hb'
            simp at hb'
          · intro _
            refine ⟨⟨s.nextTimerId, delayFor (jsTrim s.input).length, jsTrim s.input,
              s.tone, s.selectedModel⟩, ?_, rfl, Nat.lt_succ_self _⟩
            simp [ht]
  | doClear =>
      rw [handleClear_eq]
      refine ⟨?_, ?_, ?_⟩
      · intro hb'
        simp at hb'
      · intro _
        cases hb : s.isSending
        · have ht := h2 hb
          cases href : s.typingTimeoutRef <;> simp [ht, href]
        · obtain ⟨t, ht, href, _⟩ := h3 hb
          simp [ht, href]
      · intro hb'
        simp at hb'
  | doModel value =>
      rw [handleModelChange_eq]
      exact inv_frame ⟨h1, h2, h3⟩ rfl rfl rfl rfl rfl rfl
  | doTone t =>
      exact inv_frame ⟨h1, h2, h3⟩ rfl rfl rfl rfl rfl rfl
  | doShowTimestamps b =>
      exact inv_frame ⟨h1, h2, h3⟩ rfl rfl rfl rfl rfl rfl
  | doTypingPause b =>
      exact inv_frame ⟨h1, h2, h3⟩ rfl rfl rfl rfl rfl rfl
  | doMode =>
      exact inv_frame ⟨h1, h2, h3⟩ rfl rfl rfl rfl rfl rfl
  | doDrawer b =>
      exact inv_frame ⟨h1, h2, h3⟩ rfl rfl rfl rfl rfl rfl
  | doFire fa t hmem =>
      cases hb : s.isSending
      · rw [h2 hb] at hmem
        simp at hmem
      · obtain ⟨t', ht', href, hlt⟩ := h3 hb
        rw [ht'] at hmem
        have hteq : t = t' := by simpa using hmem
        subst hteq
        rw [fireTimer_eq]
        refine ⟨?_, ?_, ?_⟩
        · intro hb'
          simp at hb'
        · intro _
          rw [ht']
          simp
        · intro hb'
          simp at hb'

/-- Every state the UI can actually reach satisfies the invariant. -/
theorem inv_reachable {s : AppState} (h : Reachable s) : Inv s := by
  induction h with
  | init => exact inv_init
  | step _ hst ih => exact inv_step ih hst

/-- A timer handle `k` already below the `setTimeout` counter and absent
from the live slots stays absent across any single event (new slots always
get the strictly larger, fresh handle). -/
theorem step_tid_fresh {s s' : AppState} (hst : Step s s') {k : Nat}
    (hk : k < s.nextTimerId) (habs : ∀ t ∈ s.timers, t.tid ≠ k) :
    k < s'.nextTimerId ∧ ∀ t ∈ s'.timers, t.tid ≠ k := by
  cases hst with
  | doInput text =>
      cases hb : s.isSending <;> simp only [onInputChange, hb, if_true, Bool.false_eq_true,
        if_false] <;> exact ⟨hk, habs⟩
  | doExample text =>
      cases hse : s.showExamples <;> simp only [onExampleClick, hse, if_true,
        Bool.false_eq_true, if_false] <;> exact ⟨hk, habs⟩
  | doSubmit fu fa =>
      by_cases he : jsTrim s.input = ""
      · rw [handleSubmit_of_empty fu fa he]
        exact ⟨hk, habs⟩
      · cases hp : s.typingPause
        · rw [handleSubmit_sync fu fa he hp]
          exact ⟨hk, habs⟩
        · rw [handleSubmit_async fu fa he hp]
          refine ⟨Nat.lt_succ_of_lt hk, ?_⟩
          intro t ht
          simp only [List.mem_append, List.mem_singleton] at ht
          cases ht with
          | inl hmem => exact habs t hmem
          | inr heq =>
              subst heq
              exact fun hcon => absurd hcon.symm (Nat.ne_of_lt hk)
  | doClear =>
      rw [handleClear_eq]
      refine ⟨hk, ?_⟩
      cases href : s.typingTimeoutRef
      · simpa using habs
      · intro t ht
        simp only [List.mem_filter] at ht
        exact habs t ht.1
  | doModel value =>
      rw [handleModelChange_eq]
      exact ⟨hk, habs⟩
  | doTone t => exact ⟨hk, habs⟩
  | doShowTimestamps b => exact ⟨hk, habs⟩
  | doTypingPause b => exact ⟨hk, habs⟩
  | doMode => exact ⟨hk, habs⟩
  | doDrawer b => exact ⟨hk, habs⟩
  | doFire fa t hmem =>
      rw [fireTimer_eq]
      refine ⟨hk, ?_⟩
      intro u hu
      simp only [List.mem_filter] at hu
      exact habs u hu.1

/-- `step_tid_fresh`, propagated along an arbitrary sequence of events. -/
theorem reachFrom_tid_fresh {s0 s : AppState} (h : ReachFrom s0 s) {k : Nat}
    (hk : k < s0.nextTimerId) (habs : ∀ t ∈ s0.timers, t.tid ≠ k) :
    k < s.nextTimerId ∧ ∀ t ∈ s.timers, t.tid ≠ k := by
  induction h with
  | refl => exact ⟨hk, habs⟩
  | tail _ hst ih => exact step_tid_fresh hst ih.1 ih.2

/-- The concrete typed-and-submitted run is reachable. -/
theorem exSending_reachable : Reachable exSending :=
  Reachable.step
    (Reachable.step Reachable.init (Step.doInput initState "hi"))
    (Step.doSubmit exTyped ⟨"u1", 10⟩ ⟨"a1", 20⟩)

/-! ### The claims -/

/-- C5: the reply scheduled by `handleSubmit` is delayed by
`min(1400, 500 + 4 × inputLength)` milliseconds, `inputLength` being the
character count of the submitted (trimmed) prompt; in particular length 0
gives 500ms, length 100 gives 900ms and length 300 gives 1400ms. -/
theorem c5_delay_formula {s : AppState} (fu fa : Fresh)
    (he : ¬ jsTrim s.input = "") (hp : s.typingPause = true) :
    (∃ t, (handleSubmit fu fa s).timers = s.timers ++ [t] ∧
        t.delay = Nat.min 1400 (500 + 4 * (jsTrim s.input).length)) ∧
    delayFor 0 = 500 ∧ delayFor 100 = 900 ∧ delayFor 300 = 1400 := by
  refine ⟨⟨⟨s.nextTimerId, delayFor (jsTrim s.input).length, jsTrim s.input,
    s.tone, s.selectedModel⟩, ?_, ?_⟩, by decide, by decide, by decide⟩
  · rw [handleSubmit_async fu fa he hp]
  · show delayFor (jsTrim s.input).length = _
    unfold delayFor
    rw [Nat.mul_comm]

/-- C5 witness: submitting the 5-character prompt `"Hello"` schedules the
reply after `min(1400, 500 + 4 × 5) = 520` ms. -/
theorem c5_delay_formula_witness :
    (∃ t, (handleSubmit ⟨"u1", 10⟩ ⟨"a1", 20⟩ (onInputChange "Hello" initState)).timers =
        (onInputChange "Hello" initState).timers ++ [t] ∧
      t.delay = Nat.min 1400 (500 + 4 * (jsTrim (onInputChange "Hello" initState).input).length)) ∧
    delayFor 0 = 500 ∧ delayFor 100 = 900 ∧ delayFor 300 = 1400 :=
  c5_delay_formula ⟨"u1", 10⟩ ⟨"a1", 20⟩ (by decide) (by decide)

/-- C6: `composeResponse` with tone Concise always starts with
`"Quick answer:"`; with tone Playful it always ends with the playful
closing sentence, and with every other tone it ends with the shared
closing `"Happy to refine further."`; and for the prompt `"Hello"`, tone
Balanced and the catalog model `"Nova 3"` (id `"nova-3"`), the reply
begins with `"Here you go with a balanced take: Hello"`, mentions
`"Nova 3"` and ends with `"Happy to refine further."`. -/
theorem c6_compose_text :
    (∀ p m, ∃ r, composeResponse p .Concise m = "Quick answer:" ++ r) ∧
    (∀ p m, ∃ pre, composeResponse p .Playful m =
        pre ++ "Let me know if you want another quirky angle!") ∧
    (∀ p m t, t ≠ Tone.Playful →
      ∃ pre, composeResponse p t m = pre ++ "Happy to refine further.") ∧
    (∃ r, composeResponse "Hello" .Balanced "nova-3" =
        "Here you go with a balanced take: Hello" ++ r) ∧
    (∃ a b, composeResponse "Hello" .Balanced "nova-3" = a ++ "Nova 3" ++ b) ∧
    (∃ pre, composeResponse "Hello" .Balanced "nova-3" =
        pre ++ "Happy to refine further.") := by
  refine ⟨?_, ?_, ?_, ?_, ?_, ?_⟩
  · intro p m
    refine ⟨" " ++ p ++ "\n\n" ++ modelLabel m ++ " thinks the key points are:\n" ++
      "• Understand intent clearly.\n" ++ "• Respond with the tone selected (" ++
      Tone.name .Concise ++ ").\n" ++
      "• Provide a follow-up option for deeper exploration.\n\n" ++
      "Happy to refine further.", ?_⟩
    simp only [composeResponse, toneLead]
    rw [if_neg (show ¬ Tone.Concise = Tone.Playful by decide)]
    simp only [← String.append_assoc]
  · intro p m
    refine ⟨toneLead .Playful ++ " " ++ p ++ "\n\n" ++ modelLabel m ++
      " thinks the key points are:\n" ++ "• Understand intent clearly.\n" ++
      "• Respond with the tone selected (" ++ Tone.name .Playful ++ ").\n" ++
      "• Provide a follow-up option for deeper exploration.\n\n", ?_⟩
    simp [composeResponse]
  · intro p m t h
    refine ⟨toneLead t ++ " " ++ p ++ "\n\n" ++ modelLabel m ++
      " thinks the key points are:\n" ++ "• Understand intent clearly.\n" ++
      "• Respond with the tone selected (" ++ Tone.name t ++ ").\n" ++
      "• Provide a follow-up option for deeper exploration.\n\n", ?_⟩
    simp only [composeResponse]
    rw [if_neg h]
  · exact ⟨"\n\nNova 3 thinks the key points are:\n• Understand intent clearly.\n• Respond with the tone selected (Balanced).\n• Provide a follow-up option for deeper exploration.\n\nHappy to refine further.", by decide⟩
  · exact ⟨"Here you go with a balanced take: Hello\n\n", " thinks the key points are:\n• Understand intent clearly.\n• Respond with the tone selected (Balanced).\n• Provide a follow-up option for deeper exploration.\n\nHappy to refine further.", by decide⟩
  · exact ⟨"Here you go with a balanced take: Hello\n\nNova 3 thinks the key points are:\n• Understand intent clearly.\n• Respond with the tone selected (Balanced).\n• Provide a follow-up option for deeper exploration.\n\n", by decide⟩

/-- C6 witness: the non-Playful clause instantiated at tone Detailed. -/
theorem c6_compose_text_witness :
    ∃ pre, composeResponse "x" .Detailed "nova-3" = pre ++ "Happy to refine further." :=
  c6_compose_text.2.2.1 "x" "nova-3" .Detailed (by decide)

/-- C8: a submit whose input trims to empty (for example `""` or `"   "`)
is a complete no-op: the state — in particular the message log and the
status chip (text, accent, `isSending`) — is untouched. -/
theorem c8_empty_submit_noop {s : AppState} (fu fa : Fresh)
    (h : jsTrim s.input = "") :
    handleSubmit fu fa s = s ∧
    (handleSubmit fu fa s).messages = s.messages ∧
    (handleSubmit fu fa s).status = s.status ∧
    (handleSubmit fu fa s).isSending = s.isSending := by
  have heq := handleSubmit_of_empty fu fa h
  exact ⟨heq, by rw [heq], by rw [heq], by rw [heq]⟩

/-- C8 witness: submitting with `"   "` in the field changes nothing. -/
theorem c8_empty_submit_noop_witness :
    handleSubmit ⟨"u1", 10⟩ ⟨"a1", 20⟩ (onInputChange "   " initState) =
        onInputChange "   " initState ∧
    (handleSubmit ⟨"u1", 10⟩ ⟨"a1", 20⟩ (onInputChange "   " initState)).messages =
        (onInputChange "   " initState).messages ∧
    (handleSubmit ⟨"u1", 10⟩ ⟨"a1", 20⟩ (onInputChange "   " initState)).status =
        (onInputChange "   " initState).status ∧
    (handleSubmit ⟨"u1", 10⟩ ⟨"a1", 20⟩ (onInputChange "   " initState)).isSending =
        (onInputChange "   " initState).isSending :=
  c8_empty_submit_noop ⟨"u1", 10⟩ ⟨"a1", 20⟩ (by decide)

/-- C9: reply composition is deterministic and depends on nothing but the
prompt, the tone and the selected model: two renders whose states agree on
`tone` and `selectedModel` — whatever their messages, input, status or
timers — compose byte-identical replies for the same prompt. -/
theorem c9_compose_deterministic {s₁ s₂ : AppState} (p : String)
    (ht : s₁.tone = s₂.tone) (hm : s₁.selectedModel = s₂.selectedModel) :
    composeResponseAt s₁ p = composeResponseAt s₂ p := by
  unfold composeResponseAt
  rw [ht, hm]

/-- C9 witness: the initial state and a state with different input text
compose the same reply. -/
theorem c9_compose_deterministic_witness :
    composeResponseAt initState "Hi" = composeResponseAt (onInputChange "x" initState) "Hi" :=
  c9_compose_deterministic "Hi" (by decide) (by decide)

/-- C10: composing a reply never fails for an unknown model id — it is a
total function, and when the selected id matches no catalog entry the
label position of the body is filled with the literal fallback `"Model"`
(`?.label ?? "Model"`). -/
theorem c10_unknown_model_fallback (p : String) (t : Tone) (id : String)
    (h : ∀ m ∈ models, m.id ≠ id) :
    modelLabel id = "Model" ∧
    ∃ r, composeResponse p t id = (toneLead t ++ " " ++ p ++ "\n\n" ++ "Model") ++ r := by
  have hfind : models.find? (fun m => m.id == id) = none := by
    rw [List.find?_eq_none]
    intro m hm
    simpa using h m hm
  have hlabel : modelLabel id = "Model" := by
    simp [modelLabel, hfind]
  refine ⟨hlabel, ⟨" thinks the key points are:\n" ++ "• Understand intent clearly.\n" ++
    "• Respond with the tone selected (" ++ Tone.name t ++ ").\n" ++
    "• Provide a follow-up option for deeper exploration.\n\n" ++
    (if t = Tone.Playful then "Let me know if you want another quirky angle!"
     else "Happy to refine further."), ?_⟩⟩
  simp only [composeResponse, hlabel]
  simp only [← String.append_assoc]

/-- C10 witness: the fallback at the unknown id `"bogus-id"`. -/
theorem c10_unknown_model_fallback_witness :
    modelLabel "bogus-id" = "Model" ∧
    ∃ r, composeResponse "Hi" .Balanced "bogus-id" =
      (toneLead .Balanced ++ " " ++ "Hi" ++ "\n\n" ++ "Model") ++ r :=
  c10_unknown_model_fallback "Hi" .Balanced "bogus-id" (by decide)

/-- C1 counterexample: the model `Select` handler does not fail on an id
outside the catalog and does not keep the previous selection — calling it
with `"bogus-id"` replaces the selection (`"nova-3"` before, `"bogus-id"`
after) and merely reports the generic `"Model updated"` status. -/
theorem c1_setModel_counterexample :
    (handleModelChange "bogus-id" initState).selectedModel = "bogus-id" ∧
    initState.selectedModel = "nova-3" ∧
    ¬ (handleModelChange "bogus-id" initState).selectedModel = initState.selectedModel ∧
    (handleModelChange "bogus-id" initState).status = ⟨"Model updated", true⟩ := by
  decide

/-- C1 (amended): the model-change handler always replaces the selection
with the given id — also when the id is not in the catalog (there is no
`InvalidModelId` failure) — and touches nothing but the selection and the
status: for a catalog id the status reports the matched entry's label and
description, for an unknown id it reads `"Model updated"`. -/
theorem c1_setModel_replaces_selection (value : String) (s : AppState) :
    (handleModelChange value s).selectedModel = value ∧
    (handleModelChange value s).messages = s.messages ∧
    (handleModelChange value s).tone = s.tone ∧
    (handleModelChange value s).timers = s.timers ∧
    (handleModelChange value s).isSending = s.isSending ∧
    (∀ m, models.find? (fun u => u.id == value) = some m →
      (handleModelChange value s).status =
        ⟨"Model set to " ++ m.label ++ " — " ++ m.description, true⟩) ∧
    (models.find? (fun u => u.id == value) = none →
      (handleModelChange value s).status = ⟨"Model updated", true⟩) := by
  rw [handleModelChange_eq]
  refine ⟨rfl, rfl, rfl, rfl, rfl, ?_, ?_⟩
  · intro m hm
    simp [hm]
  · intro hm
    simp [hm]

/-- C1 witness: the amended behaviour at the unknown id `"bogus-id"` and
at the catalog id `"nova-3-mini"`. -/
theorem c1_setModel_replaces_selection_witness :
    (handleModelChange "bogus-id" initState).status = ⟨"Model updated", true⟩ ∧
    (handleModelChange "nova-3-mini" initState).selectedModel = "nova-3-mini" :=
  ⟨(c1_setModel_replaces_selection "bogus-id" initState).2.2.2.2.2.2 (by decide),
   (c1_setModel_replaces_selection "nova-3-mini" initState).1⟩

/-- C2: in every reachable state with a reply pending, a submit — with any
text the user could try to enter — is ignored: the disabled input field
rejects the text, the form handler finds the (just-cleared) empty input
and returns at the guard, so no message is appended, no second timer is
scheduled, and the whole state is unchanged until the pending request
settles. -/
theorem c2_submit_ignored_while_sending {s : AppState} (hr : Reachable s)
    (hs : s.isSending = true) (text : String) (fu fa : Fresh) :
    onInputChange text s = s ∧
    handleSubmit fu fa (onInputChange text s) = s ∧
    (handleSubmit fu fa (onInputChange text s)).messages = s.messages ∧
    (handleSubmit fu fa (onInputChange text s)).timers = s.timers := by
  obtain ⟨h1, _h2, _h3⟩ := inv_reachable hr
  have hin : s.input = "" := (h1 hs).1
  have hIC : onInputChange text s = s := by
    simp [onInputChange, hs]
  have hHS : handleSubmit fu fa s = s :=
    handleSubmit_of_empty fu fa (by rw [hin]; rfl)
  rw [hIC, hHS]
  exact ⟨rfl, rfl, rfl, rfl⟩

/-- C2 witness: in the concrete pending state, submitting `"more text"`
changes nothing. -/
theorem c2_submit_ignored_while_sending_witness :
    onInputChange "more text" exSending = exSending ∧
    handleSubmit ⟨"u2", 30⟩ ⟨"a2", 40⟩ (onInputChange "more text" exSending) = exSending ∧
    (handleSubmit ⟨"u2", 30⟩ ⟨"a2", 40⟩ (onInputChange "more text" exSending)).messages =
      exSending.messages ∧
    (handleSubmit ⟨"u2", 30⟩ ⟨"a2", 40⟩ (onInputChange "more text" exSending)).timers =
      exSending.timers :=
  c2_submit_ignored_while_sending exSending_reachable (by decide) "more text"
    ⟨"u2", 30⟩ ⟨"a2", 40⟩

/-- C3: calling `clear()` while a reply is pending cancels it for good:
the single live timeout is removed on the spot, and in every state
reachable afterwards — in particular after the scheduled delay would have
elapsed — no live timeout carries the cancelled handle, so the `doFire`
transition that would append that request's assistant message is never
enabled again.  Cancellation is effective, not best-effort. -/
theorem c3_clear_cancels_pending_reply {s : AppState} (hr : Reachable s)
    (hs : s.isSending = true) :
    ∃ t, s.timers = [t] ∧ (handleClear s).timers = [] ∧
      ∀ s', ReachFrom (handleClear s) s' → ∀ u ∈ s'.timers, u.tid ≠ t.tid := by
  obtain ⟨_h1, _h2, h3⟩ := inv_reachable hr
  obtain ⟨t, ht, href, hlt⟩ := h3 hs
  have hclear : (handleClear s).timers = [] := by
    rw [handleClear_eq]
    simp [ht, href]
  refine ⟨t, ht, hclear, ?_⟩
  intro s' hrf u hu
  have hnext : t.tid < (handleClear s).nextTimerId := by
    rw [handleClear_eq]
    exact hlt
  have habs : ∀ u' ∈ (handleClear s).timers, u'.tid ≠ t.tid := by
    rw [hclear]
    simp
  exact (reachFrom_tid_fresh hrf hnext habs).2 u hu

/-- C3 witness: clearing the concrete pending state. -/
theorem c3_clear_cancels_pending_reply_witness :
    ∃ t, exSending.timers = [t] ∧ (handleClear exSending).timers = [] ∧
      ∀ s', ReachFrom (handleClear exSending) s' → ∀ u ∈ s'.timers, u.tid ≠ t.tid :=
  c3_clear_cancels_pending_reply exSending_reachable (by decide)

/-- C4: the reply of a submitted request is composed from the settings as
they were at submit time: the scheduled timeout carries the submit-time
prompt, tone and model (the data the `respond` closure captured), tone and
model changes never touch the pending timeout, and when the timeout fires
— in whatever state, with whatever settings are then current — the
appended assistant text is `composeResponse` of the captured snapshot. -/
theorem c4_reply_uses_submit_time_snapshot {s : AppState} (fu fa : Fresh)
    (he : ¬ jsTrim s.input = "") (hp : s.typingPause = true) :
    ∃ t, (handleSubmit fu fa s).timers = s.timers ++ [t] ∧
      t.prompt = jsTrim s.input ∧ t.tone = s.tone ∧ t.selectedModel = s.selectedModel ∧
      (∀ t' s₂, (handleToneChange t' s₂).timers = s₂.timers) ∧
      (∀ v s₂, (handleModelChange v s₂).timers = s₂.timers) ∧
      (∀ fr s₂, (fireTimer fr t s₂).messages = s₂.messages ++
        [⟨fr.id, .ai, composeResponse (jsTrim s.input) s.tone s.selectedModel, fr.now⟩]) := by
  refine ⟨⟨s.nextTimerId, delayFor (jsTrim s.input).length, jsTrim s.input, s.tone,
    s.selectedModel⟩, ?_, rfl, rfl, rfl, ?_, ?_, ?_⟩
  · rw [handleSubmit_async fu fa he hp]
  · intro t' s₂
    rfl
  · intro v s₂
    rw [handleModelChange_eq]
  · intro fr s₂
    rw [fireTimer_eq]

/-- C4 witness: the snapshot behaviour on the concrete typed state. -/
theorem c4_reply_uses_submit_time_snapshot_witness :
    ∃ t, (handleSubmit ⟨"u1", 10⟩ ⟨"a1", 20⟩ exTyped).timers = exTyped.timers ++ [t] ∧
      t.prompt = jsTrim exTyped.input ∧ t.tone = exTyped.tone ∧
      t.selectedModel = exTyped.selectedModel ∧
      (∀ t' s₂, (handleToneChange t' s₂).timers = s₂.timers) ∧
      (∀ v s₂, (handleModelChange v s₂).timers = s₂.timers) ∧
      (∀ fr s₂, (fireTimer fr t s₂).messages = s₂.messages ++
        [⟨fr.id, .ai,
          composeResponse (jsTrim exTyped.input) exTyped.tone exTyped.selectedModel,
          fr.now⟩]) :=
  c4_reply_uses_submit_time_snapshot ⟨"u1", 10⟩ ⟨"a1", 20⟩ (by decide) (by decide)

/-- C7: submitting a prompt with non-empty trim appends exactly one
message immediately — the user message, at the end of the log — and while
the reply is pending (`typingPause` on) the count is the old count + 1;
when the scheduled timeout settles the request, the count is the old
count + 2 and sending is over.  On the synchronous path (`typingPause`
off) the count is + 2 at once. -/
theorem c7_submit_message_counts {s : AppState} (fu fa fr : Fresh)
    (he : ¬ jsTrim s.input = "") :
    (s.typingPause = true →
      (handleSubmit fu fa s).messages.length = s.messages.length + 1 ∧
      (handleSubmit fu fa s).messages.getLast? =
        some ⟨fu.id, .user, jsTrim s.input, fu.now⟩ ∧
      (handleSubmit fu fa s).isSending = true ∧
      ∃ t, (handleSubmit fu fa s).timers = s.timers ++ [t] ∧
        (fireTimer fr t (handleSubmit fu fa s)).messages.length = s.messages.length + 2 ∧
        (fireTimer fr t (handleSubmit fu fa s)).isSending = false) ∧
    (s.typingPause = false →
      (handleSubmit fu fa s).messages.length = s.messages.length + 2 ∧
      (handleSubmit fu fa s).isSending = false) := by
  constructor
  · intro hp
    rw [handleSubmit_async fu fa he hp]
    refine ⟨by simp, by simp, rfl,
      ⟨⟨s.nextTimerId, delayFor (jsTrim s.input).length, jsTrim s.input, s.tone,
        s.selectedModel⟩, rfl, ?_, rfl⟩⟩
    rw [fireTimer_eq]
    simp
  · intro hp
    rw [handleSubmit_sync fu fa he hp]
    exact ⟨by simp, rfl⟩

/-- C7 witness: the two-phase count on a concrete `"Hello"` submission. -/
theorem c7_submit_message_counts_witness :
    (handleSubmit ⟨"u1", 10⟩ ⟨"a1", 20⟩ (onInputChange "Hello" initState)).messages.length =
      (onInputChange "Hello" initState).messages.length + 1 ∧
    (handleSubmit ⟨"u1", 10⟩ ⟨"a1", 20⟩ (onInputChange "Hello" initState)).messages.getLast? =
      some ⟨"u1", .user, jsTrim (onInputChange "Hello" initState).input, 10⟩ ∧
    (handleSubmit ⟨"u1", 10⟩ ⟨"a1", 20⟩ (onInputChange "Hello" initState)).isSending = true ∧
    ∃ t, (handleSubmit ⟨"u1", 10⟩ ⟨"a1", 20⟩ (onInputChange "Hello" initState)).timers =
        (onInputChange "Hello" initState).timers ++ [t] ∧
      (fireTimer ⟨"r1", 30⟩ t
          (handleSubmit ⟨"u1", 10⟩ ⟨"a1", 20⟩ (onInputChange "Hello" initState))).messages.length =
        (onInputChange "Hello" initState).messages.length + 2 ∧
      (fireTimer ⟨"r1", 30⟩ t
          (handleSubmit ⟨"u1", 10⟩ ⟨"a1", 20⟩ (onInputChange "Hello" initState))).isSending =
        false :=
  (c7_submit_message_counts ⟨"u1", 10⟩ ⟨"a1", 20⟩ ⟨"r1", 30⟩ (by decide)).1 (by decide)

end Chat
